import Mathlib

/-!
Shallow embedding of the stock request abstract model
(src/stock_request/models/stock_request_abstract.py).

Master-data records referenced by a request (warehouses, products, units of
measure, routing rules and routes) are embedded as plain structures.
Locations are keyed by natural-number identifiers resolved through an
environment, so that the parent chain can be walked.  A many2one field
holding an empty recordset becomes an Option that is none; recordset union
becomes duplicate-free list union.  Float quantities become rationals.
-/

structure StockRule where
  id : Nat
  location_dest_id : Nat
  deriving DecidableEq, Repr

structure StockRoute where
  id : Nat
  warehouse_ids : List Nat
  rule_ids : List StockRule
  company_id : Option Nat
  deriving DecidableEq, Repr

structure ProductCategory where
  id : Nat
  total_route_ids : List StockRoute
  deriving DecidableEq, Repr

structure Uom where
  id : Nat
  factor : ℚ
  category_id : Nat
  deriving DecidableEq, Repr

structure Product where
  id : Nat
  route_ids : List StockRoute
  categ_id : ProductCategory
  uom_id : Uom
  company_id : Option Nat
  deriving DecidableEq, Repr

structure Warehouse where
  id : Nat
  company_id : Option Nat
  lot_stock_id : Nat
  deriving DecidableEq, Repr

structure Location where
  location_id : Option Nat
  warehouse_id : Option Warehouse
  company_id : Option Nat
  deriving DecidableEq, Repr

/-- Read-only collaborators: the routing-policy table queried by
the route recomputation, and the location store keyed by id. -/
structure Env where
  routes : List StockRoute
  loc : Nat → Location

structure StockRequest where
  name : String
  warehouse_id : Option Warehouse
  location_id : Option Nat
  product_id : Option Product
  product_uom_id : Option Uom
  product_uom_qty : ℚ
  product_qty : ℚ
  company_id : Option Nat
  route_id : Option StockRoute
  route_ids : List StockRoute
  order_id : Option Nat
  is_stock_request : Bool
  deriving DecidableEq, Repr

/-- Field names carried by the write pipeline: constraint triggers and
stored-compute dependencies are declared per field in the source. -/
inductive FieldName where
  | product_id | product_uom_id | product_uom_qty | product_qty
  | warehouse_id | location_id | company_id | route_id
  deriving DecidableEq, Repr

/-- Validation-failure taxonomy of the constraint checks. -/
inductive StockRequestError where
  | CompanyMismatch
  | UomCategoryMismatch
  | NonPositiveQuantity
  deriving DecidableEq, Repr

/-- Modelled from the spec: the external UoM Conversion Service
(the uom collaborator is outside this repository).  Ratio-based
conversion within a category via each unit factor relative to the
category reference; an unset unit leaves the quantity as given. -/
def compute_quantity (fromUom : Option Uom) (qty : ℚ) (toUom : Option Uom) : ℚ :=
  match fromUom with
  | none => qty
  | some u =>
    let amount := qty / u.factor
    match toUom with
    | none => amount
    | some t => amount * t.factor

/-- Embeds method _compute_product_qty: the stored derived quantity in the
product default UoM. -/
def compute_product_qty (rec : StockRequest) : StockRequest :=
  { rec with
    product_qty :=
      compute_quantity rec.product_uom_id rec.product_uom_qty
        (rec.product_id.map fun p => p.uom_id) }

/-- Embeds the while loop of get_parents, walking the parent chain from a
location id; the loop of the source is unbounded, so the embedding takes
explicit fuel and stops extending the chain when the fuel runs out. -/
def get_parents_aux (env : Env) : Nat → Nat → List Nat
  | 0, l => [l]
  | fuel + 1, l =>
    match (env.loc l).location_id with
    | none => [l]
    | some p => l :: get_parents_aux env fuel p

/-- Embeds method get_parents: the ancestor ids of the request location
(an unset location gives the empty recordset, hence the empty list). -/
def get_parents (env : Env) (fuel : Nat) (rec : StockRequest) : List Nat :=
  match rec.location_id with
  | none => []
  | some l => get_parents_aux env fuel l

/-- Embeds the initial search of _compute_route_ids: all routes whose
warehouse set meets the given warehouse ids. -/
def search_routes (env : Env) (whIds : List Nat) : List StockRoute :=
  env.routes.filter fun r => r.warehouse_ids.any fun w => whIds.contains w

/-- Embeds self.mapped("warehouse_id").ids over the batch. -/
def mapped_warehouse_ids (batch : List StockRequest) : List Nat :=
  batch.filterMap fun rec => rec.warehouse_id.map fun w => w.id

/-- Embeds the routes_by_warehouse dict of _compute_route_ids as a lookup
function: the searched routes that include the given warehouse (a key
absent from the dict gives the empty list). -/
def routes_by_warehouse (env : Env) (batch : List StockRequest) (w : Nat) :
    List StockRoute :=
  (search_routes env (mapped_warehouse_ids batch)).filter fun r =>
    r.warehouse_ids.contains w

/-- Recordset union: keep the left operand, append unseen elements of the
right operand. -/
def union_routes (xs ys : List StockRoute) : List StockRoute :=
  xs ++ ys.filter fun r => !(xs.contains r)

/-- Embeds the per-record body of _compute_route_ids, given the lookup
built from the batch: product routes union total category routes when a
product is set, union the warehouse-mapped routes when present, then keep
only routes with a rule whose destination lies in the parent chain. -/
def compute_route_ids_record (env : Env) (fuel : Nat)
    (rbw : Nat → List StockRoute) (rec : StockRequest) : StockRequest :=
  let routes :=
    match rec.product_id with
    | none => ([] : List StockRoute)
    | some p => union_routes p.route_ids p.categ_id.total_route_ids
  let routes :=
    match rec.warehouse_id with
    | none => routes
    | some w => if rbw w.id ≠ [] then union_routes routes (rbw w.id) else routes
  let parents := get_parents env fuel rec
  { rec with
    route_ids :=
      routes.filter fun r =>
        r.rule_ids.any fun p => parents.contains p.location_dest_id }

/-- Embeds method _compute_route_ids over a batch. -/
def compute_route_ids (env : Env) (fuel : Nat) (batch : List StockRequest) :
    List StockRequest :=
  batch.map (compute_route_ids_record env fuel (routes_by_warehouse env batch))

/-- Embeds method _check_company_constrains: the four sequential company
coherence checks, each raising the company-mismatch validation error. -/
def check_company_constrains (env : Env) (rec : StockRequest) :
    Option StockRequestError :=
  if (rec.product_id.bind fun p => p.company_id).isSome ∧
      rec.product_id.bind (fun p => p.company_id) ≠ rec.company_id then
    some StockRequestError.CompanyMismatch
  else if (rec.location_id.bind fun l => (env.loc l).company_id).isSome ∧
      rec.location_id.bind (fun l => (env.loc l).company_id) ≠ rec.company_id then
    some StockRequestError.CompanyMismatch
  else if rec.warehouse_id.bind (fun w => w.company_id) ≠ rec.company_id then
    some StockRequestError.CompanyMismatch
  else if rec.route_id.isSome ∧
      (rec.route_id.bind fun r => r.company_id).isSome ∧
      rec.route_id.bind (fun r => r.company_id) ≠ rec.company_id then
    some StockRequestError.CompanyMismatch
  else none

/-- Embeds method _check_product_uom: the selected UoM category must equal
the product default UoM category. -/
def check_product_uom (rec : StockRequest) : Option StockRequestError :=
  if rec.product_id.map (fun p => p.uom_id.category_id) ≠
      rec.product_uom_id.map (fun u => u.category_id) then
    some StockRequestError.UomCategoryMismatch
  else none

/-- Embeds method _check_qty: the canonical quantity must be strictly
positive. -/
def check_qty (rec : StockRequest) : Option StockRequestError :=
  if rec.product_qty ≤ 0 then some StockRequestError.NonPositiveQuantity
  else none

/-- Embeds method onchange_warehouse_id.  The early return fires when the
record is the concrete stock.request model with an order set; otherwise,
with a warehouse set, the location is reset to the warehouse default stock
location when the location-owning warehouse differs, and the company is
adopted from the warehouse when it differs. -/
def onchange_warehouse_id (env : Env) (rec : StockRequest) : StockRequest :=
  if rec.is_stock_request && rec.order_id.isSome then rec
  else
    match rec.warehouse_id with
    | none => rec
    | some wh =>
      let loc_wh := rec.location_id.bind fun l => (env.loc l).warehouse_id
      let rec1 :=
        if some wh ≠ loc_wh then { rec with location_id := some wh.lot_stock_id }
        else rec
      if wh.company_id ≠ rec1.company_id then { rec1 with company_id := wh.company_id }
      else rec1

/-- Embeds method onchange_location_id.  The source re-runs
onchange_warehouse_id under a no_change_childs context flag, but that flag
is never read by onchange_warehouse_id in this module, so the embedding
calls it on the updated record directly. -/
def onchange_location_id (env : Env) (rec : StockRequest) : StockRequest :=
  match rec.location_id with
  | none => rec
  | some l =>
    match (env.loc l).warehouse_id with
    | none => rec
    | some loc_wh =>
      if rec.warehouse_id ≠ some loc_wh then
        onchange_warehouse_id env { rec with warehouse_id := some loc_wh }
      else rec

/-- Dependency list of the stored compute _compute_product_qty as declared
on the source decorator (the fourth declared path,
product_id.product_tmpl_id.uom_id, runs through product_id). -/
def compute_product_qty_depends : List FieldName :=
  [FieldName.product_id, FieldName.product_uom_id, FieldName.product_uom_qty]

/-- Trigger fields declared on _check_company_constrains. -/
def check_company_constrains_fields : List FieldName :=
  [FieldName.company_id, FieldName.product_id, FieldName.warehouse_id,
   FieldName.location_id, FieldName.route_id]

/-- Trigger fields declared on _check_product_uom: only product_id. -/
def check_product_uom_fields : List FieldName := [FieldName.product_id]

/-- Trigger fields declared on _check_qty. -/
def check_qty_fields : List FieldName := [FieldName.product_qty]

/-- A write touching the given fields fires a declared trigger list when
the two lists meet. -/
def triggered (touched deps : List FieldName) : Bool :=
  touched.any fun f => deps.contains f

/-- ORM flush semantics for the one stored compute the claims need: a write
touching a dependency of product_qty re-runs compute_product_qty and marks
product_qty as touched in turn. -/
def recompute_stored (rec : StockRequest) (touched : List FieldName) :
    StockRequest × List FieldName :=
  if triggered touched compute_product_qty_depends then
    (compute_product_qty rec, touched ++ [FieldName.product_qty])
  else (rec, touched)

/-- ORM constraint dispatch: each check runs at commit exactly when its
declared trigger fields were touched; the first failure is raised. -/
def validate_constrains (env : Env) (rec : StockRequest)
    (touched : List FieldName) : Option StockRequestError :=
  match (if triggered touched check_company_constrains_fields then
      check_company_constrains env rec else none) with
  | some e => some e
  | none =>
    match (if triggered touched check_product_uom_fields then
        check_product_uom rec else none) with
    | some e => some e
    | none =>
      if triggered touched check_qty_fields then check_qty rec else none

/-- ORM write: apply the field updates, re-run triggered stored computes,
then run triggered constraint checks; a raised check aborts the write. -/
def write (env : Env) (rec : StockRequest) (upd : StockRequest → StockRequest)
    (touched : List FieldName) : Except StockRequestError StockRequest :=
  let rec1 := upd rec
  let st := recompute_stored rec1 touched
  match validate_constrains env st.1 st.2 with
  | some e => Except.error e
  | none => Except.ok st.1

/-! Helper lemmas. -/

/-- A guarded company clause of the constraint check, in existential form. -/
theorem company_clause_iff {α : Type} (o : Option α) (f : α → Option Nat)
    (c0 : Option Nat) :
    ((o.bind f).isSome ∧ o.bind f ≠ c0) ↔
      (∃ a c, o = some a ∧ f a = some c ∧ some c ≠ c0) := by
  cases o with
  | none => simp
  | some a => cases h : f a <;> simp [h]

/-- The route clause carries an additional isSome guard on the record
itself, which is implied by the inner guard. -/
theorem company_clause_iff' {α : Type} (o : Option α) (f : α → Option Nat)
    (c0 : Option Nat) :
    (o.isSome ∧ (o.bind f).isSome ∧ o.bind f ≠ c0) ↔
      (∃ a c, o = some a ∧ f a = some c ∧ some c ≠ c0) := by
  cases o with
  | none => simp
  | some a => cases h : f a <;> simp [h]

/-! Claim theorems. -/

/-- Claim C2: after any mutation touching a dependency of the canonical
quantity (product, unit of measure, requested quantity), the recomputed
record satisfies product_qty = convert(product_uom_qty, product_uom_id,
product default UoM). -/
theorem compute_product_qty_invariant (rec : StockRequest)
    (upd : StockRequest → StockRequest) (touched : List FieldName)
    (h : triggered touched compute_product_qty_depends = true) :
    (recompute_stored (upd rec) touched).1.product_qty =
      compute_quantity (recompute_stored (upd rec) touched).1.product_uom_id
        (recompute_stored (upd rec) touched).1.product_uom_qty
        ((recompute_stored (upd rec) touched).1.product_id.map fun p => p.uom_id) := by
  simp [recompute_stored, h, compute_product_qty]

def recW : StockRequest :=
  { name := "/", warehouse_id := none, location_id := none, product_id := none,
    product_uom_id := none, product_uom_qty := 0, product_qty := 0,
    company_id := none, route_id := none, route_ids := [], order_id := none,
    is_stock_request := false }

/-- Witness for claim C2 at a concrete record and quantity write. -/
theorem compute_product_qty_invariant_witness :
    (recompute_stored ((fun r => { r with product_uom_qty := 7 }) recW)
        [FieldName.product_uom_qty]).1.product_qty =
      compute_quantity
        (recompute_stored ((fun r => { r with product_uom_qty := 7 }) recW)
          [FieldName.product_uom_qty]).1.product_uom_id
        (recompute_stored ((fun r => { r with product_uom_qty := 7 }) recW)
          [FieldName.product_uom_qty]).1.product_uom_qty
        ((recompute_stored ((fun r => { r with product_uom_qty := 7 }) recW)
          [FieldName.product_uom_qty]).1.product_id.map fun p => p.uom_id) :=
  compute_product_qty_invariant recW (fun r => { r with product_uom_qty := 7 })
    [FieldName.product_uom_qty] rfl

/-- Claim C3: the company-coherence check raises the company-mismatch
error exactly when the product company is set and differs, or the location
company is set and differs, or the warehouse company differs
unconditionally, or the route is set with a set differing company. -/
theorem check_company_constrains_spec (env : Env) (rec : StockRequest) :
    check_company_constrains env rec = some StockRequestError.CompanyMismatch ↔
      ((∃ p c, rec.product_id = some p ∧ p.company_id = some c ∧
          some c ≠ rec.company_id) ∨
       (∃ l c, rec.location_id = some l ∧ (env.loc l).company_id = some c ∧
          some c ≠ rec.company_id) ∨
       rec.warehouse_id.bind (fun w => w.company_id) ≠ rec.company_id ∨
       (∃ rt c, rec.route_id = some rt ∧ rt.company_id = some c ∧
          some c ≠ rec.company_id)) := by
  have key : check_company_constrains env rec =
      some StockRequestError.CompanyMismatch ↔
      (((rec.product_id.bind fun p => p.company_id).isSome ∧
          rec.product_id.bind (fun p => p.company_id) ≠ rec.company_id) ∨
       ((rec.location_id.bind fun l => (env.loc l).company_id).isSome ∧
          rec.location_id.bind (fun l => (env.loc l).company_id) ≠ rec.company_id) ∨
       rec.warehouse_id.bind (fun w => w.company_id) ≠ rec.company_id ∨
       (rec.route_id.isSome ∧
          (rec.route_id.bind fun r => r.company_id).isSome ∧
          rec.route_id.bind (fun r => r.company_id) ≠ rec.company_id)) := by
    unfold check_company_constrains
    split_ifs with h1 h2 h3 h4 <;> simp_all <;> tauto
  rw [key, company_clause_iff, company_clause_iff, company_clause_iff']

/-- Claim C8: the quantity check raises the non-positive-quantity error
exactly when the canonical quantity is nonpositive; and a write putting
the requested quantity at minus one is rejected with that error, given
positive conversion factors. -/
theorem check_qty_spec (env : Env) (rec srec : StockRequest)
    (hu : 0 < (srec.product_uom_id.map Uom.factor).getD 1)
    (hp : 0 < ((srec.product_id.map fun p => p.uom_id.factor).getD 1)) :
    (check_qty rec = some StockRequestError.NonPositiveQuantity ↔
      rec.product_qty ≤ 0) ∧
    write env srec (fun r => { r with product_uom_qty := -1 })
      [FieldName.product_uom_qty] =
      Except.error StockRequestError.NonPositiveQuantity := by
  constructor
  · unfold check_qty
    split_ifs with h <;> simp [h]
  · have hq : compute_quantity srec.product_uom_id (-1)
        (srec.product_id.map fun p => p.uom_id) ≤ 0 := by
      unfold compute_quantity
      cases h1 : srec.product_uom_id with
      | none => norm_num
      | some u =>
        have hu' : 0 < u.factor := by simpa [h1] using hu
        have hneg : (-1 : ℚ) / u.factor < 0 :=
          div_neg_of_neg_of_pos (by norm_num) hu'
        cases h2 : srec.product_id with
        | none => simpa using le_of_lt hneg
        | some p =>
          have hp' : 0 < p.uom_id.factor := by simpa [h2] using hp
          simpa using le_of_lt (mul_neg_of_neg_of_pos hneg hp')
    have hq' : (compute_product_qty
        { srec with product_uom_qty := -1 }).product_qty ≤ 0 := by
      simpa [compute_product_qty] using hq
    simp [write, recompute_stored, validate_constrains, check_qty, hq',
      triggered, compute_product_qty_depends, check_company_constrains_fields,
      check_product_uom_fields, check_qty_fields]

def uomW : Uom := { id := 1, factor := 1, category_id := 1 }

def catW : ProductCategory := { id := 1, total_route_ids := [] }

def prodW : Product :=
  { id := 1, route_ids := [], categ_id := catW, uom_id := uomW,
    company_id := none }

def envW : Env :=
  { routes := [],
    loc := fun _ =>
      { location_id := none, warehouse_id := none, company_id := none } }

def srecW : StockRequest :=
  { name := "/", warehouse_id := none, location_id := none,
    product_id := some prodW, product_uom_id := some uomW,
    product_uom_qty := 5, product_qty := 5, company_id := none,
    route_id := none, route_ids := [], order_id := none,
    is_stock_request := false }

/-- Witness for claim C8 at a concrete record with unit factors. -/
theorem check_qty_spec_witness :
    ((check_qty srecW = some StockRequestError.NonPositiveQuantity ↔
        srecW.product_qty ≤ 0) ∧
      write envW srecW (fun r => { r with product_uom_qty := -1 })
        [FieldName.product_uom_qty] =
        Except.error StockRequestError.NonPositiveQuantity) :=
  check_qty_spec envW srecW srecW (by decide) (by decide)

/-- Claim C10: with an unset location the parent set is empty, and the
recomputed applicable route set is empty whatever candidate policies the
product or warehouse contribute. -/
theorem compute_route_ids_no_location (env : Env) (fuel : Nat)
    (rbw : Nat → List StockRoute) (rec : StockRequest)
    (h : rec.location_id = none) :
    get_parents env fuel rec = [] ∧
    (compute_route_ids_record env fuel rbw rec).route_ids = [] := by
  constructor
  · simp [get_parents, h]
  · simp [compute_route_ids_record, get_parents, h]

/-- Witness for claim C10 at a concrete record without location. -/
theorem compute_route_ids_no_location_witness :
    get_parents envW 3 srecW = [] ∧
    (compute_route_ids_record envW 3 (fun _ => []) srecW).route_ids = [] :=
  compute_route_ids_no_location envW 3 (fun _ => []) srecW rfl

/-- With a depth measure strictly decreasing along the parent chain, the
chain walk is insensitive to fuel beyond the depth of the start. -/
theorem get_parents_aux_stable (env : Env) (d : Nat → Nat)
    (hd : ∀ l p, (env.loc l).location_id = some p → d p < d l) :
    ∀ f l g, d l ≤ f → d l ≤ g →
      get_parents_aux env f l = get_parents_aux env g l := by
  intro f
  induction f with
  | zero =>
    intro l g hf hg
    cases hp : (env.loc l).location_id with
    | none =>
      cases g with
      | zero => rfl
      | succ g' => simp [get_parents_aux, hp]
    | some p => exact absurd (hd l p hp) (by omega)
  | succ f' ih =>
    intro l g hf hg
    cases hp : (env.loc l).location_id with
    | none =>
      cases g with
      | zero => simp [get_parents_aux, hp]
      | succ g' => simp [get_parents_aux, hp]
    | some p =>
      have hdp := hd l p hp
      cases g with
      | zero => exact absurd hdp (by omega)
      | succ g' =>
        simp only [get_parents_aux, hp]
        exact congrArg (l :: .) (ih p g' (by omega) (by omega))

/-- The chain walk, given enough fuel, collects exactly the reflexive
transitive parents of the start. -/
theorem get_parents_aux_mem (env : Env) (d : Nat → Nat)
    (hd : ∀ l p, (env.loc l).location_id = some p → d p < d l) :
    ∀ f l, d l ≤ f → ∀ a,
      (a ∈ get_parents_aux env f l ↔
        Relation.ReflTransGen (fun x y => (env.loc x).location_id = some y) l a) := by
  intro f
  induction f with
  | zero =>
    intro l hf a
    cases hp : (env.loc l).location_id with
    | none =>
      simp only [get_parents_aux, List.mem_singleton]
      constructor
      · rintro rfl
        exact Relation.ReflTransGen.refl
      · intro h
        rcases Relation.ReflTransGen.cases_head h with h' | ⟨b, hb, _⟩
        · exact h'.symm
        · rw [hp] at hb
          cases hb
    | some p => exact absurd (hd l p hp) (by omega)
  | succ f' ih =>
    intro l hf a
    cases hp : (env.loc l).location_id with
    | none =>
      simp only [get_parents_aux, hp, List.mem_singleton]
      constructor
      · rintro rfl
        exact Relation.ReflTransGen.refl
      · intro h
        rcases Relation.ReflTransGen.cases_head h with h' | ⟨b, hb, _⟩
        · exact h'.symm
        · rw [hp] at hb
          cases hb
    | some p =>
      have hdp := hd l p hp
      simp only [get_parents_aux, hp, List.mem_cons]
      rw [ih p (by omega) a]
      constructor
      · rintro (rfl | h)
        · exact Relation.ReflTransGen.refl
        · exact Relation.ReflTransGen.head hp h
      · intro h
        rcases Relation.ReflTransGen.cases_head h with h' | ⟨b, hb, hbr⟩
        · exact Or.inl h'.symm
        · rw [hp] at hb
          cases hb
          exact Or.inr hbr

/-- The depth measure is weakly decreasing along reflexive transitive
parent chains. -/
theorem rtg_depth_le (env : Env) (d : Nat → Nat)
    (hd : ∀ l p, (env.loc l).location_id = some p → d p < d l) {x y : Nat}
    (h : Relation.ReflTransGen
      (fun a b => (env.loc a).location_id = some b) x y) :
    d y ≤ d x := by
  induction h with
  | refl => exact le_rfl
  | tail _ h2 ih => exact le_trans (le_of_lt (hd _ _ h2)) ih

/-- The chain walk never revisits a node when the chain is acyclic. -/
theorem get_parents_aux_nodup (env : Env) (d : Nat → Nat)
    (hd : ∀ l p, (env.loc l).location_id = some p → d p < d l) :
    ∀ f l, d l ≤ f → (get_parents_aux env f l).Nodup := by
  intro f
  induction f with
  | zero =>
    intro l _
    simp [get_parents_aux]
  | succ f' ih =>
    intro l hf
    cases hp : (env.loc l).location_id with
    | none => simp [get_parents_aux, hp]
    | some p =>
      have hdp := hd l p hp
      simp only [get_parents_aux, hp, List.nodup_cons]
      refine ⟨fun hmem => ?_, ih p (by omega)⟩
      have hreach := (get_parents_aux_mem env d hd f' p (by omega) l).mp hmem
      have hle := rtg_depth_le env d hd hreach
      omega

/-- Claim C4: on a location whose parent chain is acyclic (witnessed by a
strictly decreasing depth measure), get_parents terminates — the walk is
stable once the fuel reaches the depth — and the result lists the location
itself and every transitive parent, each exactly once and nothing else. -/
theorem get_parents_ok (env : Env) (d : Nat → Nat)
    (hd : ∀ l p, (env.loc l).location_id = some p → d p < d l) (l : Nat) :
    (∀ rec : StockRequest, rec.location_id = some l → ∀ fuel,
      get_parents env fuel rec = get_parents_aux env fuel l) ∧
    (∀ fuel, d l ≤ fuel →
      get_parents_aux env fuel l = get_parents_aux env (d l) l) ∧
    (∀ a, a ∈ get_parents_aux env (d l) l ↔
      Relation.ReflTransGen (fun x y => (env.loc x).location_id = some y) l a) ∧
    (get_parents_aux env (d l) l).Nodup :=
  ⟨fun _ h _ => by simp [get_parents, h],
   fun fuel hf => get_parents_aux_stable env d hd fuel l (d l) hf le_rfl,
   fun a => get_parents_aux_mem env d hd (d l) l le_rfl a,
   get_parents_aux_nodup env d hd (d l) l le_rfl⟩

/-- Location store of Scenario C: the chain of location 3 below 2 below
the root 1. -/
def locEnvW : Env :=
  { routes := [],
    loc := fun n =>
      if n = 3 then
        { location_id := some 2, warehouse_id := none, company_id := none }
      else if n = 2 then
        { location_id := some 1, warehouse_id := none, company_id := none }
      else { location_id := none, warehouse_id := none, company_id := none } }

def dW : Nat → Nat := fun n => n

/-- Witness for claim C4 on the Scenario C chain. -/
theorem get_parents_ok_witness :
    (∀ rec : StockRequest, rec.location_id = some 3 → ∀ fuel,
      get_parents locEnvW fuel rec = get_parents_aux locEnvW fuel 3) ∧
    (∀ fuel, dW 3 ≤ fuel →
      get_parents_aux locEnvW fuel 3 = get_parents_aux locEnvW (dW 3) 3) ∧
    (∀ a, a ∈ get_parents_aux locEnvW (dW 3) 3 ↔
      Relation.ReflTransGen
        (fun x y => (locEnvW.loc x).location_id = some y) 3 a) ∧
    (get_parents_aux locEnvW (dW 3) 3).Nodup :=
  get_parents_ok locEnvW dW
    (by
      intro l p hp
      simp only [locEnvW] at hp
      split_ifs at hp with h3 h2 <;> simp_all [dW] <;> omega) 3

/-- Claim C5: the warehouse-change reaction is a no-op for a concrete
order-line record with an order set; otherwise, with a warehouse set, the
resulting record differs from the input only in the location — reset to
the warehouse default stock location exactly when the warehouse owning the
current location differs — and in the company, which ends up equal to the
warehouse company. -/
theorem onchange_warehouse_id_spec (env : Env) (rec : StockRequest) :
    onchange_warehouse_id env rec =
      if rec.is_stock_request && rec.order_id.isSome then rec
      else
        match rec.warehouse_id with
        | none => rec
        | some wh =>
          { rec with
            location_id :=
              if some wh ≠ rec.location_id.bind (fun l => (env.loc l).warehouse_id)
              then some wh.lot_stock_id else rec.location_id,
            company_id := wh.company_id } := by
  unfold onchange_warehouse_id
  by_cases hg : (rec.is_stock_request && rec.order_id.isSome) = true
  · simp [hg]
  · simp only [hg, if_false, Bool.false_eq_true]
    cases hw : rec.warehouse_id with
    | none => rfl
    | some wh =>
      dsimp only
      by_cases hloc :
          some wh ≠ rec.location_id.bind fun l => (env.loc l).warehouse_id
        <;> by_cases hc : wh.company_id ≠ rec.company_id
      · simp only [if_pos hloc, if_pos hc]
      · simp only [if_pos hloc, if_neg hc]
        rw [not_not.mp hc]
      · simp only [if_neg hloc, if_pos hc]
        rw [hw]
      · simp only [if_neg hloc, if_neg hc]
        rw [not_not.mp hc, ← hw]


/-- The warehouse-change reaction never touches the warehouse field. -/
theorem onchange_warehouse_id_warehouse (env : Env) (rec : StockRequest) :
    (onchange_warehouse_id env rec).warehouse_id = rec.warehouse_id := by
  unfold onchange_warehouse_id
  split_ifs with hg
  · rfl
  · split
    · rfl
    · next wh _ =>
      dsimp only
      split_ifs <;> rfl

/-- When the record warehouse already owns the record location, the
warehouse-change reaction leaves the location untouched. -/
theorem onchange_warehouse_id_location_fixed (env : Env) (rec : StockRequest)
    (l : Nat) (w : Warehouse) (hl : rec.location_id = some l)
    (hww : rec.warehouse_id = some w)
    (hw : (env.loc l).warehouse_id = some w) :
    (onchange_warehouse_id env rec).location_id = rec.location_id := by
  have hbind : (rec.location_id.bind fun x => (env.loc x).warehouse_id) = some w := by
    rw [hl]
    simpa using hw
  unfold onchange_warehouse_id
  split_ifs with hg
  · rfl
  · split
    · rfl
    · next wh heq =>
      have hwww : wh = w := by
        rw [hww] at heq
        exact Option.some.inj heq.symm
      subst hwww
      dsimp only
      rw [hbind]
      simp only [ne_eq, not_true_eq_false, if_false]
      split_ifs <;> rfl

/-- Claim C6: the location-change reaction adopts the warehouse owning the
new location when that warehouse exists and differs, re-running the
warehouse-change reaction on the updated record, and the location field is
left unchanged by the whole cascade. -/
theorem onchange_location_id_spec (env : Env) (rec : StockRequest) :
    (onchange_location_id env rec).location_id = rec.location_id ∧
    (∀ l w, rec.location_id = some l → (env.loc l).warehouse_id = some w →
      rec.warehouse_id ≠ some w →
      onchange_location_id env rec =
        onchange_warehouse_id env { rec with warehouse_id := some w } ∧
      (onchange_location_id env rec).warehouse_id = some w) := by
  constructor
  · unfold onchange_location_id
    split
    · rfl
    · next l heq =>
      split
      · rfl
      · next w heq2 =>
        split_ifs with hne
        · exact onchange_warehouse_id_location_fixed env _ l w heq rfl heq2
        · rfl
  · intro l w hl hw hne
    have h1 : onchange_location_id env rec =
        onchange_warehouse_id env { rec with warehouse_id := some w } := by
      unfold onchange_location_id
      rw [hl]
      dsimp only
      rw [hw]
      dsimp only
      rw [if_pos hne]
    refine ⟨h1, ?_⟩
    rw [h1, onchange_warehouse_id_warehouse]

def w0 : Warehouse := { id := 7, company_id := some 1, lot_stock_id := 1 }

def envL : Env :=
  { routes := [],
    loc := fun n =>
      if n = 1 then
        { location_id := none, warehouse_id := some w0, company_id := none }
      else { location_id := none, warehouse_id := none, company_id := none } }

def recL : StockRequest :=
  { name := "/", warehouse_id := none, location_id := some 1,
    product_id := none, product_uom_id := none, product_uom_qty := 1,
    product_qty := 1, company_id := none, route_id := none, route_ids := [],
    order_id := none, is_stock_request := false }

/-- Witness for claim C6 on a concrete location owned by a warehouse that
differs from the record warehouse. -/
theorem onchange_location_id_spec_witness :
    (onchange_location_id envL recL).location_id = recL.location_id ∧
    (onchange_location_id envL recL =
        onchange_warehouse_id envL { recL with warehouse_id := some w0 } ∧
      (onchange_location_id envL recL).warehouse_id = some w0) :=
  ⟨(onchange_location_id_spec envL recL).1,
   (onchange_location_id_spec envL recL).2 1 w0 rfl (by decide) (by decide)⟩

def uomB : Uom := { id := 2, factor := 1, category_id := 2 }

/-- Claim C7 failing input: _check_product_uom is declared with trigger
field product_id only, so a write touching only product_uom_id — here to
a unit of a different category — commits without raising, even though the
committed state violates the UoM-category predicate of the check. -/
theorem check_product_uom_not_triggered :
    write envW srecW (fun r => { r with product_uom_id := some uomB })
        [FieldName.product_uom_id] =
      Except.ok (compute_product_qty { srecW with product_uom_id := some uomB }) ∧
    check_product_uom
        (compute_product_qty { srecW with product_uom_id := some uomB }) =
      some StockRequestError.UomCategoryMismatch := by
  have hq : (compute_product_qty
      { srecW with product_uom_id := some uomB }).product_qty = 5 := by
    simp [compute_product_qty, compute_quantity, srecW, uomB, prodW, uomW]
  have t0 : triggered [FieldName.product_uom_id]
      compute_product_qty_depends = true := rfl
  have t1 : triggered [FieldName.product_uom_id, FieldName.product_qty]
      check_company_constrains_fields = false := rfl
  have t2 : triggered [FieldName.product_uom_id, FieldName.product_qty]
      check_product_uom_fields = false := rfl
  have t3 : triggered [FieldName.product_uom_id, FieldName.product_qty]
      check_qty_fields = true := rfl
  have hcq : check_qty (compute_product_qty
      { srecW with product_uom_id := some uomB }) = none := by
    unfold check_qty
    rw [hq]
    norm_num
  constructor
  · simp [write, recompute_stored, validate_constrains, t0, t1, t2, t3, hcq]
  · simp [check_product_uom, compute_product_qty, srecW, uomB, prodW, uomW,
      catW]

/-- Erase the derived route set of a record, for frame statements. -/
def clear_route_ids (rec : StockRequest) : StockRequest :=
  { rec with route_ids := [] }

/-- Claim C9: recomputing the applicable routes twice over an unchanged
environment yields the same batch as recomputing once, and the
recomputation changes no field other than the derived route set. -/
theorem compute_route_ids_idempotent (env : Env) (fuel : Nat)
    (batch : List StockRequest) :
    compute_route_ids env fuel (compute_route_ids env fuel batch) =
      compute_route_ids env fuel batch ∧
    (compute_route_ids env fuel batch).map clear_route_ids =
      batch.map clear_route_ids := by
  have hids : mapped_warehouse_ids (compute_route_ids env fuel batch) =
      mapped_warehouse_ids batch := by
    unfold compute_route_ids mapped_warehouse_ids
    rw [List.filterMap_map]
    rfl
  have hrbw : routes_by_warehouse env (compute_route_ids env fuel batch) =
      routes_by_warehouse env batch := by
    funext w
    unfold routes_by_warehouse
    rw [hids]
  constructor
  · conv_lhs => rw [compute_route_ids, hrbw]
    rw [compute_route_ids, List.map_map]
    exact List.map_eq_map_iff.mpr fun a _ => rfl
  · rw [compute_route_ids, List.map_map]
    exact List.map_eq_map_iff.mpr fun a _ => rfl

/-- Membership in the recordset union of two route lists. -/
theorem mem_union_routes {r : StockRoute} {xs ys : List StockRoute} :
    r ∈ union_routes xs ys ↔ r ∈ xs ∨ r ∈ ys := by
  simp only [union_routes, List.mem_append, List.mem_filter, Bool.not_eq_true',
    List.contains, List.elem_eq_mem, decide_eq_false_iff_not]
  tauto

/-- Membership in the searched routes. -/
theorem mem_search_routes {env : Env} {whIds : List Nat} {r : StockRoute} :
    r ∈ search_routes env whIds ↔
      r ∈ env.routes ∧ ∃ w ∈ r.warehouse_ids, w ∈ whIds := by
  simp [search_routes, List.mem_filter, List.any_eq_true, List.contains,
    List.elem_eq_mem]

/-- Membership in the batch warehouse ids. -/
theorem mem_mapped_warehouse_ids {batch : List StockRequest} {wid : Nat} :
    wid ∈ mapped_warehouse_ids batch ↔
      ∃ rec ∈ batch, ∃ w, rec.warehouse_id = some w ∧ w.id = wid := by
  simp [mapped_warehouse_ids, List.mem_filterMap, Option.map_eq_some']

/-- Membership in the warehouse lookup. -/
theorem mem_routes_by_warehouse {env : Env} {batch : List StockRequest}
    {w : Nat} {r : StockRoute} :
    r ∈ routes_by_warehouse env batch w ↔
      (r ∈ env.routes ∧
        (∃ w' ∈ r.warehouse_ids, w' ∈ mapped_warehouse_ids batch) ∧
        w ∈ r.warehouse_ids) := by
  simp only [routes_by_warehouse, List.mem_filter, mem_search_routes,
    List.contains, List.elem_eq_mem, decide_eq_true_eq]
  tauto

/-- For the warehouse of a record of the batch, the lookup is exactly the
routes of the table including that warehouse. -/
theorem mem_rbw_of {env : Env} {batch : List StockRequest}
    {rec : StockRequest} {w : Warehouse} (hrec : rec ∈ batch)
    (hw : rec.warehouse_id = some w) (r : StockRoute) :
    r ∈ routes_by_warehouse env batch w.id ↔
      (r ∈ env.routes ∧ w.id ∈ r.warehouse_ids) := by
  rw [mem_routes_by_warehouse]
  constructor
  · rintro ⟨h1, _, h3⟩
    exact ⟨h1, h3⟩
  · rintro ⟨h1, h3⟩
    exact ⟨h1, ⟨w.id, h3,
      mem_mapped_warehouse_ids.mpr ⟨rec, hrec, w, hw, rfl⟩⟩, h3⟩

/-- Claim C1: the batch recomputation maps each record through the
per-record body; a route belongs to the recomputed applicable set exactly
when it is a candidate — attached to the product, to the product total
category routes, or mapped to the record warehouse by the batch lookup —
and some of its rules has its destination in the location ancestor chain;
with the product unset only warehouse-derived candidates remain. -/
theorem compute_route_ids_spec (env : Env) (fuel : Nat)
    (batch : List StockRequest) (rec : StockRequest) (hrec : rec ∈ batch)
    (r : StockRoute) :
    compute_route_ids env fuel batch =
      batch.map (compute_route_ids_record env fuel
        (routes_by_warehouse env batch)) ∧
    (r ∈ (compute_route_ids_record env fuel (routes_by_warehouse env batch)
        rec).route_ids ↔
      (((∃ p, rec.product_id = some p ∧
            (r ∈ p.route_ids ∨ r ∈ p.categ_id.total_route_ids)) ∨
        (∃ w, rec.warehouse_id = some w ∧ r ∈ env.routes ∧
            w.id ∈ r.warehouse_ids)) ∧
       ∃ q ∈ r.rule_ids, q.location_dest_id ∈ get_parents env fuel rec)) ∧
    (rec.product_id = none →
      (r ∈ (compute_route_ids_record env fuel (routes_by_warehouse env batch)
          rec).route_ids ↔
        ((∃ w, rec.warehouse_id = some w ∧ r ∈ env.routes ∧
            w.id ∈ r.warehouse_ids) ∧
         ∃ q ∈ r.rule_ids, q.location_dest_id ∈ get_parents env fuel rec))) := by
  have hmain : r ∈ (compute_route_ids_record env fuel
      (routes_by_warehouse env batch) rec).route_ids ↔
      (((∃ p, rec.product_id = some p ∧
            (r ∈ p.route_ids ∨ r ∈ p.categ_id.total_route_ids)) ∨
        (∃ w, rec.warehouse_id = some w ∧ r ∈ env.routes ∧
            w.id ∈ r.warehouse_ids)) ∧
       ∃ q ∈ r.rule_ids, q.location_dest_id ∈ get_parents env fuel rec) := by
    unfold compute_route_ids_record
    rcases hp : rec.product_id with _ | p <;>
      rcases hw : rec.warehouse_id with _ | w <;> dsimp only
    · simp [List.mem_filter]
    · by_cases hne : routes_by_warehouse env batch w.id = []
      · rw [if_neg (not_not_intro hne)]
        have hno : ¬(r ∈ env.routes ∧ w.id ∈ r.warehouse_ids) := by
          intro hx
          have := (mem_rbw_of hrec hw r).mpr hx
          rw [hne] at this
          exact absurd this (List.not_mem_nil r)
        simp [List.mem_filter]
        tauto
      · rw [if_pos hne]
        simp [List.mem_filter, mem_union_routes, mem_rbw_of hrec hw r,
          List.any_eq_true, List.contains, List.elem_eq_mem]
    · simp [List.mem_filter, mem_union_routes, List.any_eq_true,
        List.contains, List.elem_eq_mem]
    · by_cases hne : routes_by_warehouse env batch w.id = []
      · rw [if_neg (not_not_intro hne)]
        have hno : ¬(r ∈ env.routes ∧ w.id ∈ r.warehouse_ids) := by
          intro hx
          have := (mem_rbw_of hrec hw r).mpr hx
          rw [hne] at this
          exact absurd this (List.not_mem_nil r)
        simp [List.mem_filter, mem_union_routes, List.any_eq_true,
          List.contains, List.elem_eq_mem]
        tauto
      · rw [if_pos hne]
        simp [List.mem_filter, mem_union_routes, mem_rbw_of hrec hw r,
          List.any_eq_true, List.contains, List.elem_eq_mem]
  refine ⟨rfl, hmain, fun h0 => ?_⟩
  rw [hmain]
  simp [h0]

def ruleB : StockRule := { id := 1, location_dest_id := 5 }

def routeB : StockRoute :=
  { id := 1, warehouse_ids := [4], rule_ids := [ruleB], company_id := none }

def whB : Warehouse := { id := 4, company_id := none, lot_stock_id := 5 }

def envB : Env :=
  { routes := [routeB],
    loc := fun _ =>
      { location_id := none, warehouse_id := none, company_id := none } }

def recB : StockRequest :=
  { name := "/", warehouse_id := some whB, location_id := some 5,
    product_id := none, product_uom_id := none, product_uom_qty := 1,
    product_qty := 1, company_id := none, route_id := none, route_ids := [],
    order_id := none, is_stock_request := false }

/-- Witness for claim C1 on a one-record batch with one warehouse route. -/
theorem compute_route_ids_spec_witness :
    compute_route_ids envB 2 [recB] =
      [recB].map (compute_route_ids_record envB 2
        (routes_by_warehouse envB [recB])) ∧
    (routeB ∈ (compute_route_ids_record envB 2
        (routes_by_warehouse envB [recB]) recB).route_ids ↔
      (((∃ p, recB.product_id = some p ∧
            (routeB ∈ p.route_ids ∨ routeB ∈ p.categ_id.total_route_ids)) ∨
        (∃ w, recB.warehouse_id = some w ∧ routeB ∈ envB.routes ∧
            w.id ∈ routeB.warehouse_ids)) ∧
       ∃ q ∈ routeB.rule_ids,
         q.location_dest_id ∈ get_parents envB 2 recB)) ∧
    (recB.product_id = none →
      (routeB ∈ (compute_route_ids_record envB 2
          (routes_by_warehouse envB [recB]) recB).route_ids ↔
        ((∃ w, recB.warehouse_id = some w ∧ routeB ∈ envB.routes ∧
            w.id ∈ routeB.warehouse_ids) ∧
         ∃ q ∈ routeB.rule_ids,
           q.location_dest_id ∈ get_parents envB 2 recB))) :=
  compute_route_ids_spec envB 2 [recB] recB (List.mem_singleton.mpr rfl) routeB
